import Mathlib

/-!
Verification development for the multipath NVMe-oF driver core (src/core.c).

The definitions below are a shallow embedding of the C source:
machine integers become Nat with explicit wraparound where the C relies
on it, linked lists become Lean lists, pointers that may be NULL become
Option, and the asynchronous admin command issued by nvme_set_ns_active
is represented by a `pending` field that the nvme_ns_active_end_io
completion step consumes.  Each definition cites the function it embeds.
-/

/-- Controller lifecycle states, enum nvme_ctrl_state. -/
inductive CtrlState
  | new
  | live
  | resetting
  | reconnecting
  | deleting
  | dead
deriving DecidableEq, Repr

/-- Embedding of nvme_change_ctrl_state (core.c lines 222-293): the nested
switch decides `changed`, and the state is overwritten only when `changed`
holds.  Returns (changed, resulting state). -/
def nvme_change_ctrl_state (old : CtrlState) (req : CtrlState) : Bool × CtrlState :=
  let changed :=
    match req with
    | .live =>
      match old with
      | .new | .resetting | .reconnecting => true
      | _ => false
    | .resetting =>
      match old with
      | .new | .live => true
      | _ => false
    | .reconnecting =>
      match old with
      | .live => true
      | _ => false
    | .deleting =>
      match old with
      | .live | .resetting | .reconnecting => true
      | _ => false
    | .dead =>
      match old with
      | .deleting => true
      | _ => false
    | .new => false
  (changed, if changed then req else old)

/-- Transition table exactly as the specification section 4.2 words it
(used to compare the spec against the code): NEW to LIVE, RESETTING,
DELETING; LIVE to RESETTING, RECONNECTING, DELETING; RESETTING to LIVE,
DELETING; RECONNECTING to LIVE, DELETING; DELETING to DEAD. -/
def specTransitionTable (old : CtrlState) (req : CtrlState) : Bool :=
  match old, req with
  | .new, .live | .new, .resetting | .new, .deleting => true
  | .live, .resetting | .live, .reconnecting | .live, .deleting => true
  | .resetting, .live | .resetting, .deleting => true
  | .reconnecting, .live | .reconnecting, .deleting => true
  | .deleting, .dead => true
  | _, _ => false

/-- The transition table the code actually implements: the spec table of
section 4.2 minus the pair (NEW, DELETING). -/
def amendedTransitionTable (old : CtrlState) (req : CtrlState) : Bool :=
  match old, req with
  | .new, .live | .new, .resetting => true
  | .live, .resetting | .live, .reconnecting | .live, .deleting => true
  | .resetting, .live | .resetting, .deleting => true
  | .reconnecting, .live | .reconnecting, .deleting => true
  | .deleting, .dead => true
  | _, _ => false

/-- NVMe status code constants from the driver's header (linux/nvme.h). -/
def NVME_SC_SUCCESS : Nat := 0x0

def NVME_SC_CAP_EXCEEDED : Nat := 0x81

def NVME_SC_ONCS_NOT_SUPPORTED : Nat := 0x183

def NVME_SC_WRITE_FAULT : Nat := 0x280

def NVME_SC_READ_ERROR : Nat := 0x281

def NVME_SC_UNWRITTEN_BLOCK : Nat := 0x287

/-- NVME_SC_DNR, the do-not-retry bit in a completion status. -/
def NVME_SC_DNR : Nat := 0x4000

/-- Generic block-layer outcome classes (blk_status_t values used here). -/
inductive BlkStatus
  | ok
  | nospc
  | notsupp
  | medium
  | ioerr
deriving DecidableEq, Repr

/-- Unsigned 64-bit wraparound subtraction: the value of the C expression
`a - b` on u64 operands (as in `jiffies - req->start_time`). -/
def usub64 (a b : Nat) : Nat := (a % 2 ^ 64 + (2 ^ 64 - b % 2 ^ 64)) % 2 ^ 64

/-- Embedding of nvme_error_status (core.c lines 160-176): maps
`nvme_req(req)->status & 0x7ff` to a generic outcome class.
`% 2048` is the `& 0x7ff` mask. -/
def nvme_error_status (status : Nat) : BlkStatus :=
  let sc := status % 2048
  if sc = NVME_SC_SUCCESS then .ok
  else if sc = NVME_SC_CAP_EXCEEDED then .nospc
  else if sc = NVME_SC_ONCS_NOT_SUPPORTED then .notsupp
  else if sc = NVME_SC_WRITE_FAULT ∨ sc = NVME_SC_READ_ERROR ∨ sc = NVME_SC_UNWRITTEN_BLOCK then
    .medium
  else .ioerr

/-- The fields of a struct request / nvme_request that the completion path
reads: the no-retry request flag, the NVMe completion status, the jiffies
value at first submission, the request timeout and the retry counter. -/
structure Request where
  noretryFlag : Bool
  status : Nat
  startJiffies : Nat
  timeout : Nat
  retries : Nat
deriving DecidableEq, Repr

/-- Embedding of nvme_req_needs_retry (core.c lines 178-189), with the
module parameter nvme_max_retries and the current jiffies value passed
explicitly. -/
def nvme_req_needs_retry (maxRetries : Nat) (now : Nat) (req : Request) : Bool :=
  if req.noretryFlag then false
  else if req.status / NVME_SC_DNR % 2 = 1 then false
  else if req.timeout ≤ usub64 now req.startJiffies then false
  else if maxRetries ≤ req.retries then false
  else true

/-- Outcome of nvme_complete_rq: either the request is requeued for a
retry (with its updated retry counter), or it is terminally completed
with a mapped block status. -/
inductive CompleteAction
  | requeue (req : Request)
  | finish (s : BlkStatus)
deriving DecidableEq, Repr

/-- Embedding of nvme_complete_rq (core.c lines 191-201): on a nonzero
status that is retry-eligible, increment the retry counter and requeue;
otherwise end the request with nvme_error_status. -/
def nvme_complete_rq (maxRetries : Nat) (now : Nat) (req : Request) : CompleteAction :=
  if req.status ≠ 0 ∧ nvme_req_needs_retry maxRetries now req then
    .requeue { req with retries := req.retries + 1 }
  else
    .finish (nvme_error_status req.status)

/-- The four retry-eligibility conditions exactly as the specification
words them in section 4.1: not marked no-retry, status not of the
do-not-retry class, elapsed time under the timeout, retry counter below
the configured maximum. -/
def specRetryEligible (maxRetries : Nat) (now : Nat) (req : Request) : Prop :=
  req.noretryFlag = false ∧
  req.status / NVME_SC_DNR % 2 = 0 ∧
  usub64 now req.startJiffies < req.timeout ∧
  req.retries < maxRetries

/-- Tri-state classification of a physical namespace, enum values
NVME_NS_STATE_ACTIVE / NVME_NS_STATE_STANDBY / NVME_NS_STATE_UNDEFINED. -/
inductive NsClass
  | act
  | standby
  | undefined
deriving DecidableEq, Repr

/-- The fields of a physical member namespace (struct nvme_ns) read by
the registry and failover code: the `active` flag, the owning
controller's lifecycle state, the NVME_NS_MULTIPATH and NVME_NS_REMOVING
flag bits, ns->start_time (jiffies of the last demotion), and whether
ns->mpath_ctrl equals the aggregate's controller (the parent-child check
in nvme_mpath_make_request). -/
structure Ns where
  active : Bool
  ctrlState : CtrlState
  multipath : Bool
  removing : Bool
  startTime : Nat
  parentOk : Bool
deriving DecidableEq, Repr

instance : Inhabited Ns :=
  ⟨{ active := false, ctrlState := .new, multipath := false, removing := false,
     startTime := 0, parentOk := true }⟩

/-- Embedding of get_ns_state (core.c lines 1364-1372). -/
def get_ns_state (ns : Ns) : NsClass :=
  if ns.active ∧ ns.ctrlState = .live then .act
  else if ¬ns.active ∧ ns.ctrlState = .live then .standby
  else .undefined

/-- Generic first-match scan over a member list, returning the absolute
index of the first element satisfying `p`; the embeddings of the
list_for_each_entry loops below instantiate `p` with the loop's
condition. -/
def findFirstIdx (p : Ns → Bool) : List Ns → Nat → Option Nat
  | [], _ => none
  | n :: rest, i => if p n then some i else findFirstIdx p rest (i + 1)

/-- Embedding of get_ns_active (core.c lines 1374-1384): first member
whose classification is ACTIVE and which carries the NVME_NS_MULTIPATH
flag; returns its index. -/
def get_ns_active (members : List Ns) : Option Nat :=
  findFirstIdx (fun n => decide (get_ns_state n = .act) && n.multipath) members 0

/-- State of one logical volume: the aggregate ("root") namespace
together with the aggregate controller's bookkeeping.  `members` is
mpath_ns->ctrl->namespaces, `queue` is the congestion bio list
mpath_ns->fq_cong (bios by identifier), `pending` models an in-flight
nvme_set_ns_active admin command whose nvme_ns_active_end_io completion
has not yet run (it holds the index of the member being promoted). -/
structure MpathNs where
  root : Bool
  removing : Bool
  foInProgress : Bool
  cleanupDone : Bool
  members : List Ns
  queue : List Nat
  pending : Option Nat
deriving DecidableEq, Repr

/-- Reference to a namespace as returned by
nvme_get_active_ns_for_mpath_ns: either a member of the group, or the
argument namespace itself (when it is not a ROOT namespace). -/
inductive NsRef
  | member (i : Nat)
  | self
deriving DecidableEq, Repr

/-- Embedding of nvme_get_active_ns_for_mpath_ns (core.c lines
1209-1231): on a ROOT namespace, return the first member with
ns->active set (none when no member has it); on a non-ROOT namespace
return the namespace itself. -/
def nvme_get_active_ns_for_mpath_ns (m : MpathNs) : Option NsRef :=
  if m.root then
    match findFirstIdx (fun n => n.active) m.members 0 with
    | some i => some (.member i)
    | none => none
  else some .self

/-- Number of members whose `active` flag is set. -/
def countActive (l : List Ns) : Nat := (l.filter (fun n => n.active)).length

/-- HZ, jiffies per second (kernel configuration constant; its numeric
value is irrelevant to the claims, which only use `HZ` symbolically as
the one-tick delay and the seconds-to-jiffies factor). -/
def HZ : Nat := 1000

/-- Result of a failover-engine operation: the successor volume state,
and whether schedule_delayed_work(&mpath_ctrl->cu_work, HZ) was called
(the delayed work item the driver queues to follow up after an aborted
or failed attempt). -/
structure FoResult where
  state : MpathNs
  schedCuWork : Bool
deriving DecidableEq, Repr

/-- Memory faults observable in the embedding. -/
inductive MemFault
  | nullDeref
deriving DecidableEq, Repr

/-- Body of nvme_update_active (core.c lines 3260-3287) after the NULL
guard, on a volume whose NVME_NS_FO_IN_PROGRESS bit is already set by the
caller: find the first member with `!ns->active` and controller state
different from RECONNECTING; if none, clear the flag and return -1; if
found, dispatch nvme_set_ns_active for it (`submitOk` tells whether the
dispatch succeeded), returning 1 on success and clearing the flag and
returning 0 on dispatch failure. -/
def nvme_update_active_body (submitOk : Bool) (m : MpathNs) : MpathNs × Int :=
  match findFirstIdx (fun n => !n.active && !(n.ctrlState == .reconnecting)) m.members 0 with
  | none => ({ m with foInProgress := false }, -1)
  | some i =>
    if submitOk then ({ m with pending := some i }, 1)
    else ({ m with foInProgress := false }, 0)

/-- Embedding of nvme_update_active (core.c lines 3260-3287) including
its NULL guard: the guard branch for a NULL mpath_ns executes
`test_and_clear_bit(NVME_NS_FO_IN_PROGRESS, &mpath_ns->flags)`, which
reads through the NULL pointer, so that branch is a memory fault; a
non-NULL argument runs the body. -/
def nvme_update_active (submitOk : Bool) (m : Option MpathNs) :
    Except MemFault (MpathNs × Int) :=
  match m with
  | none => .error .nullDeref
  | some s => .ok (nvme_update_active_body submitOk s)

/-- Result of the member scan in nvme_trigger_failover (core.c lines
3354-3382): `found ai si` when the loop reaches an iteration at which
both active_ns and standby_ns are non-NULL (ai, si their indices);
`exhausted a s` when the list ends first, with the last-seen active and
standby indices. -/
inductive ScanResult
  | found (ai si : Nat)
  | exhausted (a s : Option Nat)
deriving DecidableEq, Repr

/-- The scan loop of nvme_trigger_failover: each iteration records the
current member as active_ns if ns->active and as standby_ns otherwise,
then acts as soon as both are recorded. -/
def scanMembers : List Ns → Nat → Option Nat → Option Nat → ScanResult
  | [], _, a, s => .exhausted a s
  | n :: rest, i, a, s =>
    match (if n.active then some i else a), (if n.active then s else some i) with
    | some ai, some si => .found ai si
    | some ai, none => scanMembers rest (i + 1) (some ai) none
    | none, some si => scanMembers rest (i + 1) none (some si)
    | none, none => scanMembers rest (i + 1) none none

/-- Demotion of member `ai` (core.c lines 3373-3374): clear its active
flag and stamp ns->start_time with the current jiffies. -/
def demoteAt (l : List Ns) (ai : Nat) (now : Nat) : List Ns :=
  l.set ai { l.getD ai default with active := false, startTime := now }

/-- Promotion of member `i` (core.c line 1080): set its active flag. -/
def promoteAt (l : List Ns) (i : Nat) : List Ns :=
  l.set i { l.getD i default with active := true }

/-- Action taken on the scan result by nvme_trigger_failover (core.c
lines 3354-3386), starting from a state whose NVME_NS_FO_IN_PROGRESS bit
is set: on `found`, the equal-member check, then the rate-limit check
against the standby's start_time (abort, clear the bit, schedule the
delayed work one HZ tick later), else mark the aggregate unsettled,
demote the active member and dispatch the promotion of the standby; on
`exhausted` with an active but no standby, clear the bit. -/
def scanAction (interval now : Nat) (submitOk : Bool) (m : MpathNs) : ScanResult → FoResult
  | .found ai si =>
    if ai = si then ⟨{ m with foInProgress := false }, false⟩
    else if usub64 now (m.members.getD si default).startTime < interval * HZ then
      ⟨{ m with foInProgress := false }, true⟩
    else if submitOk then
      ⟨{ m with
          members := demoteAt m.members ai now
          cleanupDone := false
          pending := some si }, false⟩
    else
      ⟨{ m with
          members := demoteAt m.members ai now
          cleanupDone := false
          foInProgress := false }, true⟩
  | .exhausted a s =>
    match a, s with
    | some _, none => ⟨{ m with foInProgress := false }, false⟩
    | _, _ => ⟨m, false⟩

/-- Embedding of nvme_trigger_failover (core.c lines 3294-3389) from the
test_and_set_bit at line 3338 onward; the prologue (lines 3304-3337)
only resolves the aggregate from the triggering child controller and
returns early without mutating anything, so it is not modelled.
`interval` is the module parameter ns_failover_interval, `now` the
current jiffies value and `submitOk` whether a nvme_set_ns_active
dispatch issued by this call succeeds. -/
def nvme_trigger_failover (interval now : Nat) (submitOk : Bool) (m : MpathNs) : FoResult :=
  if m.foInProgress then ⟨m, false⟩
  else if m.cleanupDone = false then
    match nvme_update_active_body submitOk { m with foInProgress := true } with
    | (m2, r) => ⟨m2, r == 0⟩
  else if m.root then
    scanAction interval now submitOk { m with foInProgress := true }
      (scanMembers m.members 0 none none)
  else ⟨{ m with foInProgress := true }, false⟩

/-- Embedding of nvme_ns_active_end_io (core.c lines 1063-1092), the
completion of the promotion command for the member at index `i`: on
success set its active flag and mark the aggregate settled; in both
cases clear NVME_NS_FO_IN_PROGRESS; on error schedule the delayed work
one HZ tick later. -/
def nvme_ns_active_end_io (isErr : Bool) (i : Nat) (m : MpathNs) : FoResult :=
  if isErr then
    ⟨{ m with foInProgress := false, pending := none }, true⟩
  else
    ⟨{ m with
        members := promoteAt m.members i
        cleanupDone := true
        foInProgress := false
        pending := none }, false⟩

/-- One atomic step of the failover engine on a volume: either a call of
nvme_trigger_failover (at any jiffies value, with either dispatch
outcome), or the nvme_ns_active_end_io completion of the in-flight
promotion recorded in `pending`. -/
inductive FoStep : MpathNs → MpathNs → Prop
  | trigger (interval now : Nat) (submitOk : Bool) (m : MpathNs) :
      FoStep m (nvme_trigger_failover interval now submitOk m).state
  | endio (isErr : Bool) (i : Nat) (m : MpathNs) (hp : m.pending = some i) :
      FoStep m (nvme_ns_active_end_io isErr i m).state

/-- Reachability under the failover and promotion operations. -/
def FoReachable : MpathNs → MpathNs → Prop := Relation.ReflTransGen FoStep

/-- Inductive invariant of the failover engine: at most one member
active; an unsettled aggregate has no active member; an in-flight
promotion exists only while the aggregate is unsettled and the
NVME_NS_FO_IN_PROGRESS bit is held. -/
def FoInv (m : MpathNs) : Prop :=
  countActive m.members ≤ 1 ∧
  (m.cleanupDone = false → countActive m.members = 0) ∧
  (∀ i, m.pending = some i → m.cleanupDone = false ∧ m.foInProgress = true)

/-- Result of one drain pass of the background task over one volume: the
successor volume state and the list of resubmitted parked items, each
paired with the index of the member it was resubmitted to. -/
structure ResubmitResult where
  state : MpathNs
  resubmitted : List (Nat × Nat)
deriving DecidableEq, Repr

/-- Embedding of nvme_mpath_resubmit_bios (core.c lines 1385-1458), the
per-volume body run by nvme_mpath_kthread on each wake: bail out if
NVME_NS_FO_IN_PROGRESS is set, the member list is empty, get_ns_active
finds no member, that member is being removed or the aggregate is not
settled, the aggregate namespace is being removed, or the congestion
queue is empty; otherwise detach the whole queue and resubmit every
parked bio to the single member resolved before the loop. -/
def nvme_mpath_resubmit_bios (m : MpathNs) : ResubmitResult :=
  if m.foInProgress then ⟨m, []⟩
  else if m.members.isEmpty then ⟨m, []⟩
  else
    match get_ns_active m.members with
    | none => ⟨m, []⟩
    | some i =>
      if (m.members.getD i default).removing ∨ m.cleanupDone = false then ⟨m, []⟩
      else if m.removing then ⟨m, []⟩
      else if m.queue.isEmpty then ⟨m, []⟩
      else ⟨{ m with queue := [] }, m.queue.map (fun b => (b, i))⟩

/-- Outcome of nvme_mpath_make_request for the inbound bio: dispatched to
the active member at an index; terminally completed with BLK_STS_IOERR;
looped back to re-run path selection (the parent-child mismatch goto);
or completed with BLK_STS_IOERR through the multipath end_io that was
installed for the standby member found by the second loop (which parks
the bio for a later retry). -/
inductive MakeRequestOutcome
  | submitted (i : Nat)
  | ioerr
  | retryLoop
  | standbyEndio (i : Nat)
deriving DecidableEq, Repr

/-- First loop of nvme_mpath_make_request (core.c lines 1583-1602): skip
members being removed, stop scanning if NVME_NS_FO_IN_PROGRESS is set on
the aggregate, and dispatch to the first member classified ACTIVE unless
its parent-child combination is wrong, in which case path selection is
restarted. -/
def selectActivePath (foSet : Bool) : List Ns → Nat → Option MakeRequestOutcome
  | [], _ => none
  | n :: rest, i =>
    if n.removing then selectActivePath foSet rest (i + 1)
    else if foSet then none
    else if get_ns_state n = .act then
      if n.parentOk then some (.submitted i) else some .retryLoop
    else selectActivePath foSet rest (i + 1)

/-- Embedding of nvme_mpath_make_request (core.c lines 1563-1623).
`allocOk` is the outcome of the non-blocking (GFP_ATOMIC) shadow-record
allocation from the bounded pool mpath_req_pool; the volume state is
returned unchanged in every failure branch. -/
def nvme_mpath_make_request (allocOk : Bool) (m : MpathNs) : MpathNs × MakeRequestOutcome :=
  if m.removing then (m, .ioerr)
  else if allocOk = false then (m, .ioerr)
  else
    match selectActivePath m.foInProgress m.members 0 with
    | some o => (m, o)
    | none =>
      match findFirstIdx (fun n => get_ns_state n == .standby) m.members 0 with
      | some i => (m, .standbyEndio i)
      | none => (m, .ioerr)

/-- Concrete member namespaces used to evaluate the theorems below on
explicit inputs: a live active member, a live standby member, an active
member on a RESETTING controller, and an inactive member on a DEAD
controller. -/
def nsActiveLive : Ns :=
  { active := true, ctrlState := .live, multipath := true, removing := false,
    startTime := 0, parentOk := true }

def nsStandbyLive : Ns :=
  { active := false, ctrlState := .live, multipath := true, removing := false,
    startTime := 0, parentOk := true }

def nsActiveResetting : Ns :=
  { active := true, ctrlState := .resetting, multipath := true, removing := false,
    startTime := 0, parentOk := true }

def nsStandbyDead : Ns :=
  { active := false, ctrlState := .dead, multipath := true, removing := false,
    startTime := 0, parentOk := true }

/-- A settled two-path volume with one active and one standby member. -/
def volTwoPath : MpathNs :=
  { root := true, removing := false, foInProgress := false, cleanupDone := true,
    members := [nsActiveLive, nsStandbyLive], queue := [], pending := none }

/-- A volume whose failover bit is already held. -/
def volFoBusy : MpathNs :=
  { root := true, removing := false, foInProgress := true, cleanupDone := true,
    members := [nsActiveLive, nsStandbyLive], queue := [], pending := none }

/-- An unsettled volume whose only member sits on a DEAD controller. -/
def volUnsettledDead : MpathNs :=
  { root := true, removing := false, foInProgress := false, cleanupDone := false,
    members := [nsStandbyDead], queue := [], pending := none }

/-- An unsettled volume whose only member is active on a LIVE controller. -/
def volUnsettledActive : MpathNs :=
  { root := true, removing := false, foInProgress := false, cleanupDone := false,
    members := [nsActiveLive], queue := [], pending := none }

/-- A volume with a member whose active flag is set while its controller
is RESETTING. -/
def volActiveNotLive : MpathNs :=
  { root := true, removing := false, foInProgress := false, cleanupDone := true,
    members := [nsActiveResetting], queue := [], pending := none }

/-- A volume with a non-empty congestion queue, no failover in progress
and no members at all. -/
def volQueuedNoMembers : MpathNs :=
  { root := true, removing := false, foInProgress := false, cleanupDone := true,
    members := [], queue := [7], pending := none }

/-- A settled two-path volume with parked bios in its congestion queue. -/
def volQueuedTwoPath : MpathNs :=
  { root := true, removing := false, foInProgress := false, cleanupDone := true,
    members := [nsActiveLive, nsStandbyLive], queue := [4, 9], pending := none }

/-- A failed first-match scan means no element satisfies the predicate. -/
theorem findFirstIdx_eq_none (p : Ns → Bool) :
    ∀ (l : List Ns) (k : Nat), findFirstIdx p l k = none ↔ ∀ n ∈ l, p n = false := by
  intro l
  induction l with
  | nil => intro k; simp [findFirstIdx]
  | cons n rest ih =>
    intro k
    by_cases h : p n = true
    · simp [findFirstIdx, h]
    · simp only [Bool.not_eq_true] at h
      simp [findFirstIdx, h, ih (k + 1)]

/-- A successful first-match scan returns the index, relative to the
start offset, of the first element satisfying the predicate. -/
theorem findFirstIdx_eq_some (p : Ns → Bool) :
    ∀ (l : List Ns) (k i : Nat), findFirstIdx p l k = some i →
      ∃ t, i = k + t ∧ t < l.length ∧ p (l.getD t default) = true ∧
        ∀ j, j < t → p (l.getD j default) = false := by
  intro l
  induction l with
  | nil => intro k i h; simp [findFirstIdx] at h
  | cons n rest ih =>
    intro k i h
    by_cases hp : p n = true
    · simp only [findFirstIdx, if_pos hp, Option.some.injEq] at h
      exact ⟨0, h.symm, by simp, by simpa using hp, by omega⟩
    · simp only [Bool.not_eq_true] at hp
      simp only [findFirstIdx, hp, Bool.false_eq_true, if_false] at h
      obtain ⟨t, hik, hlt, hpt, hall⟩ := ih (k + 1) i h
      refine ⟨t + 1, by omega, by simp; omega, by simpa using hpt, ?_⟩
      intro j hj
      cases j with
      | zero => simpa using hp
      | succ j0 => simpa using hall j0 (by omega)

theorem countActive_nil : countActive [] = 0 := rfl

theorem countActive_cons (n : Ns) (l : List Ns) :
    countActive (n :: l) = (if n.active then 1 else 0) + countActive l := by
  by_cases h : n.active
  · simp [countActive, List.filter_cons, h]
    omega
  · simp [countActive, List.filter_cons, h]

/-- Demoting a member whose active flag is set decrements the active
count by exactly one. -/
theorem countActive_demote (l : List Ns) :
    ∀ (ai now : Nat), ai < l.length → (l.getD ai default).active = true →
      countActive (demoteAt l ai now) + 1 = countActive l := by
  induction l with
  | nil => intro ai now h; simp at h
  | cons n rest ih =>
    intro ai now hlen hact
    cases ai with
    | zero =>
      simp only [List.getD_cons_zero] at hact
      simp [demoteAt, countActive_cons, hact]
      omega
    | succ k =>
      have hrec := ih k now (by simpa using Nat.lt_of_succ_lt_succ hlen) (by simpa using hact)
      simp only [demoteAt, List.getD_cons_succ, List.set_cons_succ] at *
      simp only [countActive_cons]
      omega

/-- Promotion can raise the active count by at most one. -/
theorem countActive_promote_le (l : List Ns) :
    ∀ i, countActive (promoteAt l i) ≤ countActive l + 1 := by
  induction l with
  | nil => intro i; simp [promoteAt, countActive]
  | cons n rest ih =>
    intro i
    cases i with
    | zero =>
      simp [promoteAt, countActive_cons]
      split <;> omega
    | succ k =>
      have hrec := ih k
      simp only [promoteAt, List.getD_cons_succ, List.set_cons_succ] at *
      simp only [countActive_cons]
      split <;> omega

/-- Whenever the scan of nvme_trigger_failover resolves both an active
and a standby member, the first holds an index whose member is active
and the second an index whose member is not. -/
theorem scanMembers_found (Qa Qs : Nat → Prop) :
    ∀ (l : List Ns) (i : Nat) (a s : Option Nat),
      (∀ j, a = some j → Qa j) →
      (∀ j, s = some j → Qs j) →
      (∀ k, k < l.length → ((l.getD k default).active = true → Qa (i + k)) ∧
        ((l.getD k default).active = false → Qs (i + k))) →
      ∀ ai si, scanMembers l i a s = .found ai si → Qa ai ∧ Qs si := by
  intro l
  induction l with
  | nil => intro i a s _ _ _ ai si h; simp [scanMembers] at h
  | cons n rest ih =>
    intro i a s ha hs hl ai si h
    have h0 := hl 0 (by simp)
    simp only [List.getD_cons_zero, Nat.add_zero] at h0
    have hrest : ∀ k, k < rest.length →
        (((rest.getD k default).active = true → Qa (i + 1 + k)) ∧
         ((rest.getD k default).active = false → Qs (i + 1 + k))) := by
      intro k hk
      have hx := hl (k + 1) (by simp; omega)
      simp only [List.getD_cons_succ] at hx
      have harith : i + (k + 1) = i + 1 + k := by omega
      rw [harith] at hx
      exact hx
    by_cases hn : n.active = true
    · cases s with
      | some si0 =>
        simp only [scanMembers, hn, if_true] at h
        cases h
        exact ⟨h0.1 hn, hs _ rfl⟩
      | none =>
        simp only [scanMembers, hn, if_true] at h
        exact ih (i + 1) (some i) none
          (by intro j hj; cases hj; exact h0.1 hn) (by intro j hj; cases hj) hrest ai si h
    · simp only [Bool.not_eq_true] at hn
      cases a with
      | some ai0 =>
        simp only [scanMembers, hn, Bool.false_eq_true, if_false] at h
        cases h
        exact ⟨ha _ rfl, h0.2 hn⟩
      | none =>
        simp only [scanMembers, hn, Bool.false_eq_true, if_false] at h
        exact ih (i + 1) none (some i)
          (by intro j hj; cases hj) (by intro j hj; cases hj; exact h0.2 hn) hrest ai si h

/-- C2 counterexample: the specification's table of section 4.2 admits
the transition NEW to DELETING, but nvme_change_ctrl_state rejects that
pair, returning false and leaving the state at NEW. -/
theorem c2_counterexample :
    specTransitionTable .new .deleting = true ∧
    nvme_change_ctrl_state .new .deleting = (false, .new) :=
  ⟨rfl, rfl⟩

/-- C2 (amended): nvme_change_ctrl_state returns true and installs the
requested state exactly for the pairs of the amended table (the claim's
table minus NEW to DELETING), and for every other pair it returns false
and leaves the state unchanged. -/
theorem c2_change_state_matches_amended_table (old req : CtrlState) :
    nvme_change_ctrl_state old req =
      (amendedTransitionTable old req,
       if amendedTransitionTable old req then req else old) := by
  cases old <;> cases req <;> rfl

/-- C3: when NVME_NS_FO_IN_PROGRESS is already set, the test_and_set_bit
in nvme_trigger_failover fails and the call returns immediately with the
volume state (members, flags, timestamps, settled state, pending
promotion) untouched and no delayed work scheduled. -/
theorem c3_failover_in_progress_noop (interval now : Nat) (submitOk : Bool) (m : MpathNs)
    (h : m.foInProgress = true) :
    nvme_trigger_failover interval now submitOk m = ⟨m, false⟩ := by
  simp [nvme_trigger_failover, h]

theorem c3_witness :
    nvme_trigger_failover 60 5 true volFoBusy = ⟨volFoBusy, false⟩ :=
  c3_failover_in_progress_noop 60 5 true volFoBusy rfl

/-- Retry eligibility in nvme_req_needs_retry coincides with the four
conditions of specification section 4.1. -/
theorem needs_retry_iff_spec (maxRetries now : Nat) (req : Request) :
    nvme_req_needs_retry maxRetries now req = true ↔ specRetryEligible maxRetries now req := by
  simp only [nvme_req_needs_retry, specRetryEligible]
  split_ifs with a b c d <;> simp_all

/-- C7: a completed request with a nonzero status is requeued with its
retry counter incremented by one exactly when the four spec conditions
hold, and is otherwise terminally completed with the mapped outcome of
nvme_error_status. -/
theorem c7_retry_decision (maxRetries now : Nat) (req : Request) (hs : req.status ≠ 0) :
    (specRetryEligible maxRetries now req →
      nvme_complete_rq maxRetries now req =
        .requeue { req with retries := req.retries + 1 }) ∧
    (¬specRetryEligible maxRetries now req →
      nvme_complete_rq maxRetries now req = .finish (nvme_error_status req.status)) := by
  constructor
  · intro he
    have ht : nvme_req_needs_retry maxRetries now req = true :=
      (needs_retry_iff_spec maxRetries now req).mpr he
    simp [nvme_complete_rq, hs, ht]
  · intro hne
    have hf : nvme_req_needs_retry maxRetries now req = false := by
      cases hx : nvme_req_needs_retry maxRetries now req
      · rfl
      · exact absurd ((needs_retry_iff_spec maxRetries now req).mp hx) hne
    simp [nvme_complete_rq, hf]

theorem c7_witness :
    nvme_complete_rq 5 10
        { noretryFlag := false, status := 641, startJiffies := 0, timeout := 100, retries := 0 } =
      .requeue
        { noretryFlag := false, status := 641, startJiffies := 0, timeout := 100, retries := 1 } ∧
    nvme_complete_rq 5 10
        { noretryFlag := false, status := 641, startJiffies := 0, timeout := 100, retries := 5 } =
      .finish .medium :=
  ⟨(c7_retry_decision 5 10 _ (by decide)).1 ⟨rfl, by decide, by decide, by decide⟩,
   (c7_retry_decision 5 10 _ (by decide)).2 (by intro h; exact absurd h.2.2.2 (by decide))⟩

/-- C9: when the non-blocking shadow-record allocation fails on a volume
that is not being removed, nvme_mpath_make_request completes that single
bio with BLK_STS_IOERR and leaves the volume state untouched. -/
theorem c9_alloc_failure_terminal (m : MpathNs) (h : m.removing = false) :
    nvme_mpath_make_request false m = (m, .ioerr) := by
  simp [nvme_mpath_make_request, h]

theorem c9_witness :
    nvme_mpath_make_request false volQueuedTwoPath = (volQueuedTwoPath, .ioerr) :=
  c9_alloc_failure_terminal volQueuedTwoPath rfl

/-- C10: the NULL guard of nvme_update_active is itself a NULL
dereference (the guard branch clears a flag bit through the NULL
aggregate pointer), while every call on a non-NULL aggregate runs
without a memory fault — so the function is memory-safe only under the
precondition that the aggregate namespace is non-NULL. -/
theorem c10_null_guard_faults :
    nvme_update_active true none = .error .nullDeref ∧
    nvme_update_active false none = .error .nullDeref ∧
    ∀ (submitOk : Bool) (s : MpathNs),
      nvme_update_active submitOk (some s) ≠ .error .nullDeref := by
  refine ⟨rfl, rfl, ?_⟩
  intro so s
  simp [nvme_update_active]

/-- C8 counterexample: on a volume whose single member has its active
flag set while its controller is RESETTING, the member is classified
UNDEFINED, not ACTIVE, yet nvme_get_active_ns_for_mpath_ns still
returns it — so find_active does not return "the first member
classified ACTIVE". -/
theorem c8_counterexample :
    get_ns_state nsActiveResetting = .undefined ∧
    nvme_get_active_ns_for_mpath_ns volActiveNotLive = some (.member 0) := by
  exact ⟨rfl, rfl⟩

/-- C8 (amended): the tri-state classification is exactly as claimed
(ACTIVE iff active flag set and controller LIVE, STANDBY iff flag clear
and controller LIVE, UNDEFINED iff controller not LIVE), while
nvme_get_active_ns_for_mpath_ns on a ROOT namespace returns the first
member whose active flag is set — regardless of its controller state —
and none exactly when no member has the flag set. -/
theorem c8_classification_and_find_active (m : MpathNs) (hroot : m.root = true) :
    (∀ ns : Ns,
      (get_ns_state ns = .act ↔ ns.active = true ∧ ns.ctrlState = .live) ∧
      (get_ns_state ns = .standby ↔ ns.active = false ∧ ns.ctrlState = .live) ∧
      (get_ns_state ns = .undefined ↔ ns.ctrlState ≠ .live)) ∧
    (nvme_get_active_ns_for_mpath_ns m = none ↔ ∀ ns ∈ m.members, ns.active = false) ∧
    (∀ i, nvme_get_active_ns_for_mpath_ns m = some (.member i) →
      i < m.members.length ∧ (m.members.getD i default).active = true ∧
      ∀ j, j < i → (m.members.getD j default).active = false) := by
  refine ⟨?_, ?_, ?_⟩
  · intro ns
    rcases ns with ⟨a, cs, mp, rm, st, po⟩
    cases a <;> cases cs <;> simp [get_ns_state]
  · cases hf : findFirstIdx (fun n => n.active) m.members 0 with
    | none =>
      have := (findFirstIdx_eq_none (fun n => n.active) m.members 0).mp hf
      simp [nvme_get_active_ns_for_mpath_ns, hroot, hf]
      exact this
    | some i =>
      obtain ⟨t, hit, hlt, hpt, hall⟩ := findFirstIdx_eq_some (fun n => n.active) m.members 0 i hf
      simp only [nvme_get_active_ns_for_mpath_ns, hroot, if_true, hf]
      constructor
      · intro hcon; cases hcon
      · intro hforall
        have hmem : m.members.getD t default ∈ m.members := by
          rw [List.getD_eq_getElem _ _ hlt]
          exact List.getElem_mem hlt
        have hx := hforall _ hmem
        rw [hx] at hpt
        exact absurd hpt (by decide)
  · intro i hi
    cases hf : findFirstIdx (fun n => n.active) m.members 0 with
    | none => simp [nvme_get_active_ns_for_mpath_ns, hroot, hf] at hi
    | some i0 =>
      simp only [nvme_get_active_ns_for_mpath_ns, hroot, if_true, hf, Option.some.injEq,
        NsRef.member.injEq] at hi
      subst hi
      obtain ⟨t, hit, hlt, hpt, hall⟩ := findFirstIdx_eq_some (fun n => n.active) m.members 0 i0 hf
      have ht : i0 = t := by omega
      subst ht
      exact ⟨hlt, hpt, hall⟩

theorem c8_witness :
    (get_ns_state nsActiveLive = .act ↔ nsActiveLive.active = true ∧ nsActiveLive.ctrlState = .live) ∧
    (nvme_get_active_ns_for_mpath_ns volTwoPath = none ↔
      ∀ ns ∈ volTwoPath.members, ns.active = false) :=
  ⟨((c8_classification_and_find_active volTwoPath rfl).1 nsActiveLive).1,
   (c8_classification_and_find_active volTwoPath rfl).2.1⟩

/-- C4: when the scan resolves an active and a standby member and the
wraparound-elapsed time since the standby's start_time is below
ns_failover_interval seconds of jiffies, the attempt aborts: the member
list (hence every active flag and timestamp) and the pending promotion
are left untouched, NVME_NS_FO_IN_PROGRESS ends up clear, and the
delayed work is scheduled one HZ tick later instead of any immediate
failover. -/
theorem c4_rate_limited_abort (interval now : Nat) (submitOk : Bool) (m : MpathNs)
    (ai si : Nat)
    (h1 : m.foInProgress = false) (h2 : m.cleanupDone = true) (h3 : m.root = true)
    (h4 : scanMembers m.members 0 none none = .found ai si)
    (h5 : usub64 now (m.members.getD si default).startTime < interval * HZ) :
    nvme_trigger_failover interval now submitOk m =
      ⟨{ m with foInProgress := false }, true⟩ := by
  have hprops := scanMembers_found
    (fun j => (m.members.getD j default).active = true)
    (fun j => (m.members.getD j default).active = false)
    m.members 0 none none
    (by intro j hj; cases hj) (by intro j hj; cases hj)
    (by intro k hk; exact ⟨fun h => by simpa using h, fun h => by simpa using h⟩)
    ai si h4
  have ha : (m.members.getD ai default).active = true := hprops.1
  have hsb : (m.members.getD si default).active = false := hprops.2
  have hne : ¬(ai = si) := by
    intro he
    rw [he] at ha
    rw [ha] at hsb
    exact absurd hsb (by decide)
  have hstep : nvme_trigger_failover interval now submitOk m =
      scanAction interval now submitOk { m with foInProgress := true }
        (scanMembers m.members 0 none none) := by
    simp [nvme_trigger_failover, h1, h2, h3]
  rw [hstep, h4]
  simp only [scanAction, hne, if_false]
  rw [if_pos (by exact h5)]

theorem c4_witness :
    nvme_trigger_failover 60 5 true volTwoPath =
      ⟨{ volTwoPath with foInProgress := false }, true⟩ :=
  c4_rate_limited_abort 60 5 true volTwoPath 0 1 rfl rfl rfl (by decide) (by decide)

/-- C5 counterexample, in two parts.  First: on an unsettled volume
whose only member sits on a DEAD (hence not LIVE) controller, the scan
of nvme_update_active still selects it and a promotion is dispatched
(pending becomes that member) with nothing rescheduled — the code
checks "not RECONNECTING", not "LIVE" as the claim states.  Second: on
an unsettled volume with no eligible member at all (its only member is
active), the call clears the flag and returns without scheduling any
delayed retry, where the claim requires a reschedule. -/
theorem c5_counterexample :
    ((nvme_trigger_failover 60 0 true volUnsettledDead).state.pending = some 0 ∧
     (volUnsettledDead.members.getD 0 default).ctrlState ≠ .live ∧
     (nvme_trigger_failover 60 0 true volUnsettledDead).schedCuWork = false) ∧
    ((nvme_trigger_failover 60 0 true volUnsettledActive).schedCuWork = false ∧
     (nvme_trigger_failover 60 0 true volUnsettledActive).state.pending = none) := by
  decide

/-- C5 (amended): on a volume that has not settled from a prior
failover, nvme_trigger_failover skips the normal failover scan and runs
nvme_update_active instead: it selects the first member that is not
active and whose controller is not RECONNECTING; if one is found its
promotion is dispatched with no rate-limit check (the result does not
depend on the jiffies value or the configured interval at all); if the
dispatch fails the delayed work is scheduled after the fixed one-HZ
backoff; and if no member qualifies the in-progress flag is cleared and
nothing is rescheduled. -/
theorem c5_unsettled_promotes_any_nonreconnecting (interval now : Nat) (submitOk : Bool)
    (m : MpathNs) (h1 : m.foInProgress = false) (h2 : m.cleanupDone = false) :
    (nvme_trigger_failover interval now submitOk m =
      match findFirstIdx (fun n => !n.active && !(n.ctrlState == .reconnecting)) m.members 0 with
      | none => ⟨{ m with foInProgress := false }, false⟩
      | some i =>
        if submitOk then ⟨{ m with foInProgress := true, pending := some i }, false⟩
        else ⟨{ m with foInProgress := false }, true⟩) ∧
    (∀ i2 n2, nvme_trigger_failover i2 n2 submitOk m =
      nvme_trigger_failover interval now submitOk m) ∧
    (∀ i, findFirstIdx (fun n => !n.active && !(n.ctrlState == .reconnecting)) m.members 0 =
        some i →
      i < m.members.length ∧ (m.members.getD i default).active = false ∧
      (m.members.getD i default).ctrlState ≠ .reconnecting ∧
      ∀ j, j < i → ¬((m.members.getD j default).active = false ∧
        (m.members.getD j default).ctrlState ≠ .reconnecting)) := by
  refine ⟨?_, ?_, ?_⟩
  · cases hf : findFirstIdx (fun n => !n.active && !(n.ctrlState == .reconnecting)) m.members 0 with
    | none => simp [nvme_trigger_failover, h1, h2, nvme_update_active_body, hf]
    | some i =>
      by_cases hso : submitOk <;>
        simp [nvme_trigger_failover, h1, h2, nvme_update_active_body, hf, hso]
  · intro i2 n2
    cases hf : findFirstIdx (fun n => !n.active && !(n.ctrlState == .reconnecting)) m.members 0 with
    | none => simp [nvme_trigger_failover, h1, h2, nvme_update_active_body, hf]
    | some i => simp [nvme_trigger_failover, h1, h2, nvme_update_active_body, hf]
  · intro i hf
    obtain ⟨t, hit, hlt, hpt, hall⟩ :=
      findFirstIdx_eq_some (fun n => !n.active && !(n.ctrlState == .reconnecting)) m.members 0 i hf
    have ht : i = t := by omega
    subst ht
    simp only [Bool.and_eq_true, Bool.not_eq_true', beq_eq_false_iff_ne] at hpt
    refine ⟨hlt, hpt.1, hpt.2, ?_⟩
    intro j hj hcon
    have hx := hall j hj
    rw [hcon.1] at hx
    simp at hx
    have hy := hcon.2
    rw [List.getD_eq_getElem?_getD] at hy
    exact hy hx

theorem c5_witness :
    nvme_trigger_failover 60 0 true volUnsettledDead =
      ⟨{ volUnsettledDead with foInProgress := true, pending := some 0 }, false⟩ ∧
    (volUnsettledDead.members.getD 0 default).active = false ∧
    (volUnsettledDead.members.getD 0 default).ctrlState ≠ .reconnecting :=
  ⟨(c5_unsettled_promotes_any_nonreconnecting 60 0 true volUnsettledDead rfl rfl).1,
   by
    have hx := (c5_unsettled_promotes_any_nonreconnecting 60 0 true volUnsettledDead rfl rfl).2.2
      0 (by decide)
    exact ⟨hx.2.1, hx.2.2.1⟩⟩

/-- C6 counterexample: a volume with a non-empty congestion queue and no
failover in progress, but no members (so no resolvable active path), has
nothing resubmitted and its queue left in place on a wake of the drain
task — the claim's two conditions (queue non-empty, flag clear) are not
sufficient for the drain. -/
theorem c6_counterexample :
    volQueuedNoMembers.foInProgress = false ∧
    volQueuedNoMembers.queue ≠ [] ∧
    nvme_mpath_resubmit_bios volQueuedNoMembers = ⟨volQueuedNoMembers, []⟩ := by
  refine ⟨rfl, by decide, rfl⟩

/-- C6 (amended): on a wake of the drain task, a volume with the
failover flag set has nothing resubmitted; and a volume whose flag is
clear, for which get_ns_active resolves an active member that is not
being removed, whose aggregate is settled and not being removed, and
whose queue is non-empty, has its entire queue detached atomically and
every parked item resubmitted against that single resolved member (path
resolution runs once per volume per wake, not once per item). -/
theorem c6_drain_conditions (m : MpathNs) (i : Nat) :
    (m.foInProgress = true → nvme_mpath_resubmit_bios m = ⟨m, []⟩) ∧
    (m.foInProgress = false → get_ns_active m.members = some i →
      (m.members.getD i default).removing = false → m.cleanupDone = true →
      m.removing = false → m.queue ≠ [] →
      nvme_mpath_resubmit_bios m =
        ⟨{ m with queue := [] }, m.queue.map (fun b => (b, i))⟩) := by
  constructor
  · intro h
    simp [nvme_mpath_resubmit_bios, h]
  · intro h1 h2 h3 h4 h5 h6
    have hmem : m.members.isEmpty = false := by
      cases hm : m.members with
      | nil =>
        rw [hm] at h2
        simp [get_ns_active, findFirstIdx] at h2
      | cons x xs => simp [hm]
    have hq : m.queue.isEmpty = false := List.isEmpty_eq_false.mpr h6
    rw [List.getD_eq_getElem?_getD] at h3
    simp [nvme_mpath_resubmit_bios, h1, hmem, h2, h3, h4, h5, hq]

theorem c6_witness :
    nvme_mpath_resubmit_bios volFoBusy = ⟨volFoBusy, []⟩ ∧
    nvme_mpath_resubmit_bios volQueuedTwoPath =
      ⟨{ volQueuedTwoPath with queue := [] }, [(4, 0), (9, 0)]⟩ :=
  ⟨(c6_drain_conditions volFoBusy 0).1 rfl,
   (c6_drain_conditions volQueuedTwoPath 0).2 rfl (by decide) rfl rfl rfl (by decide)⟩

/-- The failover invariant is preserved by any call of
nvme_trigger_failover. -/
theorem FoInv_trigger (interval now : Nat) (submitOk : Bool) (m : MpathNs) (h : FoInv m) :
    FoInv (nvme_trigger_failover interval now submitOk m).state := by
  obtain ⟨h1, h2, h3⟩ := h
  by_cases hfo : m.foInProgress = true
  · have hstep : nvme_trigger_failover interval now submitOk m = ⟨m, false⟩ := by
      simp [nvme_trigger_failover, hfo]
    rw [hstep]
    exact ⟨h1, h2, h3⟩
  · rw [Bool.not_eq_true] at hfo
    have hpend : m.pending = none := by
      cases hp : m.pending with
      | none => rfl
      | some i =>
        have hx := (h3 i hp).2
        rw [hfo] at hx
        exact absurd hx (by decide)
    by_cases hcd : m.cleanupDone = true
    · by_cases hroot : m.root = true
      · have hstep : nvme_trigger_failover interval now submitOk m =
            scanAction interval now submitOk { m with foInProgress := true }
              (scanMembers m.members 0 none none) := by
          simp [nvme_trigger_failover, hfo, hcd, hroot]
        rw [hstep]
        cases hscan : scanMembers m.members 0 none none with
        | exhausted a s =>
          have hclause2 : m.cleanupDone = false → countActive m.members = 0 := by
            intro hx
            rw [hcd] at hx
            exact absurd hx (by decide)
          have hclause3 : ∀ j, m.pending = some j → m.cleanupDone = false ∧ True := by
            intro j hpj
            rw [hpend] at hpj
            cases hpj
          cases a with
          | none =>
            cases s with
            | none =>
              exact ⟨h1, hclause2, fun j hpj => by
                have hpj2 : m.pending = some j := hpj
                rw [hpend] at hpj2; cases hpj2⟩
            | some s0 =>
              exact ⟨h1, hclause2, fun j hpj => by
                have hpj2 : m.pending = some j := hpj
                rw [hpend] at hpj2; cases hpj2⟩
          | some a0 =>
            cases s with
            | none =>
              exact ⟨h1, hclause2, fun j hpj => by
                have hpj2 : m.pending = some j := hpj
                rw [hpend] at hpj2; cases hpj2⟩
            | some s0 =>
              exact ⟨h1, hclause2, fun j hpj => by
                have hpj2 : m.pending = some j := hpj
                rw [hpend] at hpj2; cases hpj2⟩
        | found ai si =>
          have hprops := scanMembers_found
            (fun j => j < m.members.length ∧ (m.members.getD j default).active = true)
            (fun j => j < m.members.length ∧ (m.members.getD j default).active = false)
            m.members 0 none none
            (by intro j hj; cases hj) (by intro j hj; cases hj)
            (by
              intro k hk
              exact ⟨fun hx => ⟨by omega, by simpa using hx⟩,
                fun hx => ⟨by omega, by simpa using hx⟩⟩)
            ai si hscan
          have hailen : ai < m.members.length := hprops.1.1
          have haact : (m.members.getD ai default).active = true := hprops.1.2
          have hsiact : (m.members.getD si default).active = false := hprops.2.2
          have hne : ¬(ai = si) := by
            intro he
            rw [he] at haact
            rw [haact] at hsiact
            exact absurd hsiact (by decide)
          simp only [scanAction]
          rw [if_neg hne]
          by_cases hrl : usub64 now (m.members.getD si default).startTime < interval * HZ
          · rw [if_pos (by exact hrl)]
            refine ⟨h1, ?_, ?_⟩
            · intro hx
              have hx2 : m.cleanupDone = false := hx
              rw [hcd] at hx2
              exact absurd hx2 (by decide)
            · intro j hpj
              have hpj2 : m.pending = some j := hpj
              rw [hpend] at hpj2
              cases hpj2
          · rw [if_neg (by exact hrl)]
            have hcnt := countActive_demote m.members ai now hailen haact
            have hdem0 : countActive (demoteAt m.members ai now) = 0 := by omega
            by_cases hso : submitOk = true
            · rw [if_pos (by exact hso)]
              refine ⟨?_, ?_, ?_⟩
              · have hx : countActive (demoteAt m.members ai now) ≤ 1 := by omega
                exact hx
              · intro hx
                exact hdem0
              · intro j hpj
                exact ⟨rfl, rfl⟩
            · rw [if_neg (by exact hso)]
              refine ⟨?_, ?_, ?_⟩
              · have hx : countActive (demoteAt m.members ai now) ≤ 1 := by omega
                exact hx
              · intro hx
                exact hdem0
              · intro j hpj
                have hpj2 : m.pending = some j := hpj
                rw [hpend] at hpj2
                cases hpj2
      · have hstep : nvme_trigger_failover interval now submitOk m =
            ⟨{ m with foInProgress := true }, false⟩ := by
          simp [nvme_trigger_failover, hfo, hcd, hroot]
        rw [hstep]
        refine ⟨h1, h2, ?_⟩
        intro j hpj
        have hpj2 : m.pending = some j := hpj
        rw [hpend] at hpj2
        cases hpj2
    · rw [Bool.not_eq_true] at hcd
      have hc0 : countActive m.members = 0 := h2 hcd
      cases hf : findFirstIdx (fun n => !n.active && !(n.ctrlState == .reconnecting)) m.members 0 with
      | none =>
        have hstep : nvme_trigger_failover interval now submitOk m =
            ⟨{ m with foInProgress := false }, false⟩ := by
          simp [nvme_trigger_failover, hfo, hcd, nvme_update_active_body, hf]
        rw [hstep]
        refine ⟨h1, fun _ => hc0, ?_⟩
        intro j hpj
        have hpj2 : m.pending = some j := hpj
        rw [hpend] at hpj2
        cases hpj2
      | some i =>
        by_cases hso : submitOk = true
        · have hstep : nvme_trigger_failover interval now submitOk m =
              ⟨{ m with foInProgress := true, pending := some i }, false⟩ := by
            simp [nvme_trigger_failover, hfo, hcd, nvme_update_active_body, hf, hso]
          rw [hstep]
          exact ⟨h1, fun _ => hc0, fun j hpj => ⟨hcd, rfl⟩⟩
        · rw [Bool.not_eq_true] at hso
          have hstep : nvme_trigger_failover interval now submitOk m =
              ⟨{ m with foInProgress := false }, true⟩ := by
            simp [nvme_trigger_failover, hfo, hcd, nvme_update_active_body, hf, hso]
          rw [hstep]
          refine ⟨h1, fun _ => hc0, ?_⟩
          intro j hpj
          have hpj2 : m.pending = some j := hpj
          rw [hpend] at hpj2
          cases hpj2

/-- The failover invariant is preserved by the nvme_ns_active_end_io
completion of the in-flight promotion. -/
theorem FoInv_endio (isErr : Bool) (i : Nat) (m : MpathNs) (h : FoInv m)
    (hp : m.pending = some i) : FoInv (nvme_ns_active_end_io isErr i m).state := by
  obtain ⟨h1, h2, h3⟩ := h
  have hcd : m.cleanupDone = false := (h3 i hp).1
  have hc0 : countActive m.members = 0 := h2 hcd
  by_cases he : isErr = true
  · have hstep : nvme_ns_active_end_io isErr i m =
        ⟨{ m with foInProgress := false, pending := none }, true⟩ := by
      simp [nvme_ns_active_end_io, he]
    rw [hstep]
    refine ⟨h1, fun _ => hc0, ?_⟩
    intro j hpj
    have hpj2 : (none : Option Nat) = some j := hpj
    cases hpj2
  · rw [Bool.not_eq_true] at he
    have hstep : nvme_ns_active_end_io isErr i m =
        ⟨{ m with
            members := promoteAt m.members i
            cleanupDone := true
            foInProgress := false
            pending := none }, false⟩ := by
      simp [nvme_ns_active_end_io, he]
    rw [hstep]
    refine ⟨?_, ?_, ?_⟩
    · have hle := countActive_promote_le m.members i
      have hx : countActive (promoteAt m.members i) ≤ 1 := by omega
      exact hx
    · intro hx
      have hx2 : true = false := hx
      exact absurd hx2 (by decide)
    · intro j hpj
      have hpj2 : (none : Option Nat) = some j := hpj
      cases hpj2

/-- The failover invariant is preserved by every atomic step. -/
theorem FoInv_step (a b : MpathNs) (hi : FoInv a) (hs : FoStep a b) : FoInv b := by
  cases hs with
  | trigger interval now submitOk => exact FoInv_trigger interval now submitOk a hi
  | endio isErr i =>
    rename_i hp
    exact FoInv_endio isErr i a hi hp

/-- The failover invariant holds in every reachable state. -/
theorem FoInv_reachable (a b : MpathNs) (h0 : FoInv a) (hr : FoReachable a b) : FoInv b := by
  have hr2 : Relation.ReflTransGen FoStep a b := hr
  clear hr
  induction hr2 with
  | refl => exact h0
  | tail hab hbc ih => exact FoInv_step _ _ ih hbc

/-- C1: starting from any settled volume state with at most one active
member and no in-flight promotion, every state reachable through the
failover operation (nvme_trigger_failover, which demotes the active
member) and the promotion completion (nvme_ns_active_end_io, which
promotes the standby on success) has at most one member namespace with
its active flag set. -/
theorem c1_at_most_one_active (m0 m : MpathNs)
    (hstable : countActive m0.members ≤ 1 ∧ m0.cleanupDone = true ∧ m0.pending = none)
    (hr : FoReachable m0 m) : countActive m.members ≤ 1 := by
  have h0 : FoInv m0 := by
    refine ⟨hstable.1, ?_, ?_⟩
    · intro hx
      rw [hstable.2.1] at hx
      exact absurd hx (by decide)
    · intro i hp
      rw [hstable.2.2] at hp
      cases hp
  exact (FoInv_reachable m0 m h0 hr).1

theorem c1_witness :
    countActive (nvme_trigger_failover 60 999999 true volTwoPath).state.members ≤ 1 :=
  c1_at_most_one_active volTwoPath _ ⟨by decide, rfl, rfl⟩
    (Relation.ReflTransGen.single (FoStep.trigger 60 999999 true volTwoPath))
